import Mathlib

/-!
Verification of the Gas Town live observability pipeline and its
consistency-audit engine.

The definitions below are a shallow embedding of the Go sources:

* `detectChangeType`, `checkForChanges`, `getAgentSnapshots` embed the change
  detector of the web Broadcaster;
* `publishStep` and `readPumpHandle` embed the broadcast hub of
  `internal/web/ws/hub.go`;
* `buildStatus` and `buildRigStatus` embed the snapshot builder of the
  status handler in `internal/cmd/serve.go`;
* `buildConvoyInfo` embeds the convoy progress computation of
  `internal/web/handlers/convoys.go`;
* `attachRun`/`attachFix` and `singletonRun`/`singletonFix` embed the two
  doctor checks (hook-attachment validity and hook-singleton).

External collaborators (session registry, issue store, mailbox, the text
parser for agent fields) are modelled as explicit function parameters, so
every theorem quantifies over their behaviour.  Go maps are modelled as
association lists; where a claim needs each key to occur once, the theorem
carries a `Nodup` hypothesis on the key list.  The float64 progress ratio is
modelled as an exact rational.
-/

/-! ## Definitions -/

/-- One typed dependency edge of an issue. -/
structure Dependency where
  ID : String
  DependencyType : String
deriving DecidableEq, Repr

/-- Issue ("bead") record, as read from the external issue store.  Field
names follow `internal/beads.Issue`; `IssueType` stands for the Go field
`Type`. -/
structure Issue where
  ID : String
  Title : String
  Status : String
  IssueType : String
  Description : String
  HookBead : String
  AgentState : String
  Assignee : String
  CreatedAt : String
  ClosedAt : String
  Dependencies : List Dependency
  DependsOn : List String
  BlockedBy : List String
deriving DecidableEq, Repr

/-- Result of `beads.ParseAgentFields` on a description: the structured
sub-fields parsed out of free text (only the hook id is consumed here). -/
structure AgentFields where
  HookBead : String
deriving DecidableEq, Repr

/-- Comparable per-agent value tuple used by the change detector
(`agentSnapshot` in broadcaster.go). -/
structure agentSnapshot where
  Running : Bool
  HasWork : Bool
  HookBead : String
  State : String
  WorkTitle : String
deriving DecidableEq, Repr

/-- `Broadcaster.detectChangeType`: classifies the difference between the
previous and current snapshot of one agent. -/
def detectChangeType (prev curr : agentSnapshot) : String :=
  if prev.Running ≠ curr.Running then
    if curr.Running then "started" else "stopped"
  else if prev.HookBead ≠ curr.HookBead then
    if curr.HookBead ≠ "" then "work_assigned" else "work_completed"
  else if prev.State ≠ curr.State then "state_changed"
  else "updated"

/-- One broadcast agent-update event: the address, the change kind and the
snapshot carried in the payload. -/
structure AgentEvent where
  address : String
  changeType : String
  snap : agentSnapshot
deriving DecidableEq, Repr

/-- Event produced for an entry of the current snapshot map: `connected`
when the address is new, a classified change when the tuple differs, nothing
when it is unchanged. -/
def currEvent (prev : List (String × agentSnapshot))
    (p : String × agentSnapshot) : Option AgentEvent :=
  match List.lookup p.1 prev with
  | none => some ⟨p.1, "connected", p.2⟩
  | some old =>
      if p.2 ≠ old then some ⟨p.1, detectChangeType old p.2, p.2⟩ else none

/-- Event produced for an entry of the previous snapshot map: `disconnected`
when the address is gone from the current one. -/
def prevEvent (curr : List (String × agentSnapshot))
    (p : String × agentSnapshot) : Option AgentEvent :=
  if (List.lookup p.1 curr).isNone then
    some ⟨p.1, "disconnected", p.2⟩
  else none

/-- `Broadcaster.checkForChanges`, restricted to the agent diff: returns the
emitted events of one poll cycle and the snapshot map stored for the next
cycle. -/
def checkForChanges (prev curr : List (String × agentSnapshot)) :
    List AgentEvent × List (String × agentSnapshot) :=
  (curr.filterMap (currEvent prev) ++ prev.filterMap (prevEvent curr), curr)

/-- The events of a cycle that concern one address. -/
def eventsFor (addr : String) (evs : List AgentEvent) : List AgentEvent :=
  evs.filter (fun e => e.address == addr)

/-- One discovered project partition ("rig"): name, path, worker and crew
rosters and the role flags, as produced by `rig.Manager.DiscoverRigs`. -/
structure Rig where
  Name : String
  Path : String
  Polecats : List String
  Crew : List String
  HasWitness : Bool
  HasRefinery : Bool
deriving DecidableEq, Repr

/-- The ordered hook-id fallback shared by the status handler and the
broadcaster: the first-class `HookBead` field, else the hook id parsed from
the free-text description, else absent. -/
def resolveHookID (bead : Issue) (parse : String → Option AgentFields) :
    String :=
  if bead.HookBead ≠ "" then bead.HookBead
  else
    match parse bead.Description with
    | some fields => fields.HookBead
    | none => ""

/-- Snapshot of one polecat or crew agent in `getAgentSnapshots`: liveness
from the session set, work state from the prefetched agent bead, work title
from the prefetched hook bead. -/
def snapAgentEntry (rigName name : String) (sessions : List String)
    (agentBeads hookBeads : List (String × Issue))
    (parse : String → Option AgentFields) : agentSnapshot :=
  let session := "gt-" ++ rigName ++ "-" ++ name
  let address := rigName ++ "/" ++ name
  let base : agentSnapshot :=
    { Running := sessions.contains session, HasWork := false, HookBead := "",
      State := "", WorkTitle := "" }
  match List.lookup address agentBeads with
  | none => base
  | some bead =>
      let hookID := resolveHookID bead parse
      if hookID ≠ "" then
        { base with
          HasWork := true, HookBead := hookID,
          WorkTitle :=
            (match List.lookup hookID hookBeads with
              | some hookBead => hookBead.Title
              | none => ""),
          State := bead.AgentState }
      else { base with State := bead.AgentState }

/-- Snapshot holding only liveness, used for the global agents and the
witness/refinery entries (Go zero values elsewhere). -/
def runningOnlySnap (running : Bool) : agentSnapshot :=
  { Running := running, HasWork := false, HookBead := "", State := "",
    WorkTitle := "" }

/-- Global agents (mayor, deacon): included only while their session is
live, with a running-only snapshot. -/
def globalSnaps (sessions : List String) :
    List (String × agentSnapshot) :=
  (["mayor", "deacon"]).filterMap (fun name =>
    if sessions.contains ("gt-" ++ name) then
      some (name, runningOnlySnap true)
    else none)

/-- Snapshot entries contributed by one rig: polecats, crew, then the
witness and refinery entries when present. -/
def rigSnaps (r : Rig) (sessions : List String)
    (agentBeads hookBeads : List (String × Issue))
    (parse : String → Option AgentFields) :
    List (String × agentSnapshot) :=
  r.Polecats.map (fun n =>
    (r.Name ++ "/" ++ n, snapAgentEntry r.Name n sessions agentBeads
      hookBeads parse))
  ++ r.Crew.map (fun n =>
    (r.Name ++ "/" ++ n, snapAgentEntry r.Name n sessions agentBeads
      hookBeads parse))
  ++ (if r.HasWitness then
      [(r.Name ++ "/" ++ "witness",
        runningOnlySnap (sessions.contains ("gt-" ++ r.Name ++ "-witness")))]
    else [])
  ++ (if r.HasRefinery then
      [(r.Name ++ "/" ++ "refinery",
        runningOnlySnap (sessions.contains ("gt-" ++ r.Name ++ "-refinery")))]
    else [])

/-- `Broadcaster.getAgentSnapshots`, after a successful config load and rig
discovery: global agents plus every rig agent, keyed by address.  The
prefetched agent/hook bead maps and the live-session set are parameters. -/
def getAgentSnapshots (rigs : List Rig) (sessions : List String)
    (agentBeads hookBeads : List (String × Issue))
    (parse : String → Option AgentFields) :
    List (String × agentSnapshot) :=
  globalSnaps sessions
    ++ (rigs.map (fun r => rigSnaps r sessions agentBeads hookBeads
          parse)).flatten

/-- A connected observer of the hub: identity, topic-subscription set and
its bounded outbound queue (pending frames plus capacity, modelling the
buffered `send` channel). -/
structure WSClient where
  id : Nat
  topics : List String
  send : List String
  sendCap : Nat
deriving DecidableEq, Repr

/-- `Client.isSubscribed`: the wildcard topic `all` receives everything,
otherwise the specific topic must be present. -/
def isSubscribed (c : WSClient) (topic : String) : Bool :=
  c.topics.contains "all" || c.topics.contains topic

/-- Effect of one publish on one registered observer: a subscribed observer
with queue room gets the frame enqueued; a subscribed observer with a full
queue is dropped (`none`, modelling `close` plus `delete`); an unsubscribed
observer is untouched. -/
def publishOne (topic msg : String) (c : WSClient) : Option WSClient :=
  if isSubscribed c topic then
    if c.send.length < c.sendCap then some { c with send := c.send ++ [msg] }
    else none
  else some c

/-- An observer after one frame is enqueued on its outbound queue. -/
def enqueueFrame (c : WSClient) (msg : String) : WSClient :=
  { c with send := c.send ++ [msg] }

/-- One `broadcast` arm of `Hub.Run`: the registry after publishing a
message of the given type to every registered observer. -/
def publishStep (clients : List WSClient) (topic msg : String) :
    List WSClient :=
  clients.filterMap (publishOne topic msg)

/-- Observers whose queue was released by one publish step. -/
def droppedClients (clients : List WSClient) (topic : String) :
    List WSClient :=
  clients.filter (fun c => isSubscribed c topic && !(c.send.length < c.sendCap))

/-- `Client.subscribe`: each topic of a subscription message is added to
the observer topic set (a Go map-set insert). -/
def subscribeTopics (topics : List String) (newTopics : List String) :
    List String :=
  newTopics.foldl (fun ts t => if t ∈ ts then ts else ts ++ [t]) topics

/-- One read-loop iteration of `Client.readPump` at the application level:
an input that parses as a subscription message with a non-empty topic list
triggers `subscribe`; everything else is ignored. -/
def readPumpHandle (topics : List String)
    (input : Option (List String)) : List String :=
  match input with
  | some msgTopics =>
      if 0 < msgTopics.length then subscribeTopics topics msgTopics
      else topics
  | none => topics

/-- The human operator, as loaded from the overseer config. -/
structure OverseerInfo where
  Name : String
  Email : String
  Username : String
  Source : String
  UnreadMail : Nat
deriving DecidableEq, Repr

/-- Runtime state of one agent in a status response. -/
structure AgentRuntime where
  Name : String
  Address : String
  Session : String
  Role : String
  Running : Bool
  HasWork : Bool
  WorkTitle : String
  HookBead : String
  State : String
  UnreadMail : Nat
deriving DecidableEq, Repr

/-- Status of one rig in a status response.  The merge-queue summary stays
absent in `buildRigStatus` and is omitted. -/
structure RigStatus where
  Name : String
  Path : String
  Polecats : List String
  PolecatCount : Nat
  Crews : List String
  CrewCount : Nat
  HasWitness : Bool
  HasRefinery : Bool
  Agents : List AgentRuntime
deriving DecidableEq, Repr

/-- Summary counts over all rigs. -/
structure StatusSummary where
  RigCount : Nat
  PolecatCount : Nat
  CrewCount : Nat
  WitnessCount : Nat
  RefineryCount : Nat
  ActiveHooks : Nat
deriving DecidableEq, Repr

/-- The whole town status. -/
structure TownStatus where
  Name : String
  Location : String
  Overseer : Option OverseerInfo
  Agents : List AgentRuntime
  Rigs : List RigStatus
  Summary : StatusSummary
deriving DecidableEq, Repr

/-- Work-state part of one polecat or crew entry in `buildRigStatus`: the
runtime record and the active-hook increment. -/
def rigAgentEntryCore (rigName name role : String) (sessions : List String)
    (agentBeads hookBeads : List (String × Issue))
    (parse : String → Option AgentFields) : AgentRuntime × Nat :=
  let session := "gt-" ++ rigName ++ "-" ++ name
  let address := rigName ++ "/" ++ name
  let base : AgentRuntime :=
    { Name := name, Address := address, Session := session, Role := role,
      Running := sessions.contains session, HasWork := false,
      WorkTitle := "", HookBead := "", State := "", UnreadMail := 0 }
  match List.lookup address agentBeads with
  | none => (base, 0)
  | some bead =>
      let hookID := resolveHookID bead parse
      if hookID ≠ "" then
        ({ base with
            HasWork := true, HookBead := hookID,
            WorkTitle :=
              (match List.lookup hookID hookBeads with
                | some hookBead => hookBead.Title
                | none => ""),
            State := bead.AgentState }, 1)
      else ({ base with State := bead.AgentState }, 0)

/-- One polecat or crew entry of `buildRigStatus`, with the unread-mail
count filled in outside fast mode. -/
def rigAgentEntry (rigName name role : String) (sessions : List String)
    (agentBeads hookBeads : List (String × Issue))
    (parse : String → Option AgentFields) (unread : String → Nat)
    (fastMode : Bool) : AgentRuntime × Nat :=
  let core := rigAgentEntryCore rigName name role sessions agentBeads
    hookBeads parse
  (if fastMode then core.1
    else { core.1 with UnreadMail := unread (rigName ++ "/" ++ name) },
    core.2)

/-- The witness or refinery entry of a rig: liveness only. -/
def roleOnlyAgent (rigName name : String) (sessions : List String) :
    AgentRuntime :=
  { Name := name, Address := rigName ++ "/" ++ name,
    Session := "gt-" ++ rigName ++ "-" ++ name, Role := name,
    Running := sessions.contains ("gt-" ++ rigName ++ "-" ++ name),
    HasWork := false, WorkTitle := "", HookBead := "", State := "",
    UnreadMail := 0 }

/-- `StatusHandler.buildRigStatus`: the status of one rig and its count of
active hooks. -/
def buildRigStatus (r : Rig) (sessions : List String)
    (agentBeads hookBeads : List (String × Issue))
    (parse : String → Option AgentFields) (unread : String → Nat)
    (fastMode : Bool) : RigStatus × Nat :=
  let poleEntries := r.Polecats.map (fun n =>
    rigAgentEntry r.Name n "polecat" sessions agentBeads hookBeads parse
      unread fastMode)
  let crewEntries := r.Crew.map (fun n =>
    rigAgentEntry r.Name n "crew" sessions agentBeads hookBeads parse
      unread fastMode)
  let agents := poleEntries.map Prod.fst ++ crewEntries.map Prod.fst
    ++ (if r.HasWitness then [roleOnlyAgent r.Name "witness" sessions]
        else [])
    ++ (if r.HasRefinery then [roleOnlyAgent r.Name "refinery" sessions]
        else [])
  ({ Name := r.Name, Path := r.Path, Polecats := r.Polecats,
     PolecatCount := r.Polecats.length, Crews := r.Crew,
     CrewCount := r.Crew.length, HasWitness := r.HasWitness,
     HasRefinery := r.HasRefinery, Agents := agents },
    (poleEntries.map Prod.snd).sum + (crewEntries.map Prod.snd).sum)

/-- `StatusHandler.discoverGlobalAgents`: the mayor and deacon entries,
present only while their session is live. -/
def discoverGlobalAgents (sessions : List String) (unread : String → Nat)
    (fastMode : Bool) : List AgentRuntime :=
  (if sessions.contains "gt-mayor" then
    [{ Name := "mayor", Address := "mayor", Session := "gt-mayor",
       Role := "mayor", Running := true, HasWork := false, WorkTitle := "",
       HookBead := "", State := "",
       UnreadMail := if fastMode then 0 else unread "mayor" }]
  else [])
  ++ (if sessions.contains "gt-deacon" then
    [{ Name := "deacon", Address := "deacon", Session := "gt-deacon",
       Role := "deacon", Running := true, HasWork := false, WorkTitle := "",
       HookBead := "", State := "",
       UnreadMail := if fastMode then 0 else unread "deacon" }]
  else [])

/-- The summary pass of `buildStatus`: one sequential fold over the built
rig statuses, then one fold over the per-rig hook counts. -/
def buildSummary (rigStatuses : List RigStatus)
    (rigActiveHooks : List Nat) : StatusSummary :=
  let s := rigStatuses.foldl (fun s rs =>
    { s with
      RigCount := s.RigCount + 1,
      PolecatCount := s.PolecatCount + rs.PolecatCount,
      CrewCount := s.CrewCount + rs.CrewCount,
      WitnessCount := s.WitnessCount + (if rs.HasWitness then 1 else 0),
      RefineryCount := s.RefineryCount + (if rs.HasRefinery then 1 else 0) })
    ({ RigCount := 0, PolecatCount := 0, CrewCount := 0, WitnessCount := 0,
       RefineryCount := 0, ActiveHooks := 0 } : StatusSummary)
  { s with ActiveHooks := rigActiveHooks.foldl (· + ·) 0 }

/-- `StatusHandler.buildStatus` after a successful rig discovery: the
session set, the prefetched bead maps, the description parser and the
mailbox counts are parameters standing for the external collaborators. -/
def buildStatus (townName townRoot : String)
    (overseer : Option OverseerInfo) (rigs : List Rig)
    (sessions : List String) (agentBeads hookBeads : List (String × Issue))
    (parse : String → Option AgentFields) (unread : String → Nat)
    (fastMode : Bool) : TownStatus :=
  let rigResults := rigs.map (fun r =>
    buildRigStatus r sessions agentBeads hookBeads parse unread fastMode)
  { Name := townName, Location := townRoot,
    Overseer := overseer.map (fun o =>
      if fastMode then o else { o with UnreadMail := unread "overseer" }),
    Agents := discoverGlobalAgents sessions unread fastMode,
    Rigs := rigResults.map Prod.fst,
    Summary := buildSummary (rigResults.map Prod.fst)
      (rigResults.map Prod.snd) }

/-- Concrete rig for witnesses: one polecat `fox`, a witness, no refinery. -/
def rigW : Rig := ⟨"acme", "/town/acme", ["fox"], [], true, false⟩

/-- Concrete agent bead for `acme/fox`, hooked on `gt-7`. -/
def beadW : Issue :=
  ⟨"acme/fox", "Agent fox", "open", "agent", "", "gt-7", "", "", "", "",
    [], [], []⟩

/-- Concrete hook bead `gt-7`. -/
def hookW : Issue :=
  ⟨"gt-7", "Fix login bug", "open", "task", "", "", "", "", "", "",
    [], [], []⟩

/-- A member entry of a detailed convoy view. -/
structure ConvoyMemberInfo where
  ID : String
  Title : String
  Status : String
  IssueType : String
  Assignee : String
  AgentName : String
deriving DecidableEq, Repr

/-- A blocker entry of a detailed convoy view. -/
structure ConvoyBlockerInfo where
  ID : String
  Title : String
  BlockedBy : String
  Reason : String
deriving DecidableEq, Repr

/-- A convoy in an API response.  `Progress` is the float64 ratio of
`convoys.go`, modelled as an exact rational. -/
structure ConvoyInfo where
  ID : String
  Name : String
  Status : String
  TrackedIDs : List String
  Progress : ℚ
  Completed : Nat
  Total : Nat
  CreatedAt : String
  CompletedAt : String
  Members : List ConvoyMemberInfo
  Blockers : List ConvoyBlockerInfo
deriving DecidableEq, Repr

/-- Whether the pattern is an initial run of the character list. -/
def leadsWith : List Char → List Char → Bool
  | [], _ => true
  | _ :: _, [] => false
  | p :: ps, c :: cs => p == c && leadsWith ps cs

/-- The `external:rig:issue-id` unwrapping of tracked dependency ids:
`strings.SplitN(id, ":", 3)` yields three parts exactly when a second colon
follows the marker, and the id is then everything after it. -/
def externalStrip (id : String) : String :=
  if leadsWith "external:".data id.data then
    match (id.data.drop 9).dropWhile (fun c => c ≠ ':') with
    | [] => id
    | _ :: tail => String.mk tail
  else id

/-- Accumulated output of `getTrackedIssueDetails`. -/
structure TrackedDetails where
  members : List ConvoyMemberInfo
  blockers : List ConvoyBlockerInfo
  completed : Nat
deriving DecidableEq, Repr

/-- The per-id loop of `getTrackedIssueDetails`: the store resolver stands
for the batch lookup with its per-id fallback (the prefix grouping in the
source is computed but never used). -/
def trackedLoop (showIssue : String → Option Issue) (detailed : Bool) :
    List String → TrackedDetails
  | [] => ⟨[], [], 0⟩
  | id :: rest =>
    let acc := trackedLoop showIssue detailed rest
    match showIssue id with
    | none =>
        { acc with
          members :=
            if detailed then ⟨id, "(not found)", "unknown", "", "", ""⟩
              :: acc.members
            else acc.members }
    | some issue =>
        let completed := if issue.Status == "closed" then acc.completed + 1
          else acc.completed
        if detailed then
          { members :=
              ({ ID := issue.ID, Title := issue.Title,
                 Status := issue.Status, IssueType := issue.IssueType,
                 Assignee := issue.Assignee,
                 AgentName :=
                   if issue.Assignee ≠ "" then
                     (issue.Assignee.splitOn "/").getLastD ""
                   else "" } : ConvoyMemberInfo) :: acc.members,
            blockers :=
              (if issue.BlockedBy ≠ [] ∧ issue.Status ≠ "closed" then
                issue.BlockedBy.map (fun blocker =>
                  (⟨issue.ID, issue.Title, blocker, ""⟩ : ConvoyBlockerInfo))
              else []) ++ acc.blockers,
            completed := completed }
        else { acc with completed := completed }

/-- Tracked identifiers of a convoy: its `tracks` dependencies (unwrapped
from external references), else its plain dependency-id list. -/
def convoyTrackedIDs (convoy : Issue) : List String :=
  let tracked0 := convoy.Dependencies.filterMap (fun dep =>
    if dep.DependencyType == "tracks" then some (externalStrip dep.ID)
    else none)
  if tracked0.length = 0 then convoy.DependsOn else tracked0

/-- The convoy record before progress is computed. -/
def convoyBase (convoy : Issue) : ConvoyInfo :=
  { ID := convoy.ID, Name := convoy.Title, Status := convoy.Status,
    TrackedIDs := convoyTrackedIDs convoy, Progress := 0, Completed := 0,
    Total := (convoyTrackedIDs convoy).length, CreatedAt := convoy.CreatedAt,
    CompletedAt :=
      if convoy.Status == "closed" && convoy.ClosedAt != "" then
        convoy.ClosedAt
      else "",
    Members := [], Blockers := [] }

/-- `ConvoysHandler.buildConvoyInfo`: an empty tracked set means complete,
otherwise progress is the closed fraction of the tracked issues. -/
def buildConvoyInfo (convoy : Issue) (showIssue : String → Option Issue)
    (detailed : Bool) : ConvoyInfo :=
  if (convoyBase convoy).Total = 0 then
    { convoyBase convoy with Progress := 1 }
  else
    let details := trackedLoop showIssue detailed
      (convoyBase convoy).TrackedIDs
    let info :=
      { convoyBase convoy with
        Completed := details.completed,
        Progress :=
          if 0 < (convoyBase convoy).Total then
            (details.completed : ℚ) / ((convoyBase convoy).Total : ℚ)
          else (convoyBase convoy).Progress }
    if detailed then
      { info with Members := details.members, Blockers := details.blockers }
    else info

/-- Concrete convoy for the witness: tracks `gt-1` and `gt-2`. -/
def convoyW : Issue :=
  ⟨"gt-c", "Ship v2", "open", "convoy", "", "", "", "", "", "",
    [⟨"gt-1", "tracks"⟩, ⟨"gt-2", "tracks"⟩], [], []⟩

/-- Concrete closed tracked issue. -/
def closedW : Issue :=
  ⟨"gt-1", "Done part", "closed", "task", "", "", "", "", "", "",
    [], [], []⟩

/-- Concrete open tracked issue. -/
def openW : Issue :=
  ⟨"gt-2", "Open part", "open", "task", "", "", "", "", "", "",
    [], [], []⟩

/-- Concrete store resolver for the witness. -/
def showW (id : String) : Option Issue :=
  if id == "gt-1" then some closedW
  else if id == "gt-2" then some openW
  else none

/-- A pinned handoff record of one store partition, with its parsed
attached-molecule reference (empty when `ParseAttachmentFields` yields no
attachment). -/
structure PinnedAttach where
  id : String
  attachedMolecule : String
deriving DecidableEq, Repr

/-- One store partition as seen by the attachment check: its pinned records
and its molecule resolver (`Show`). -/
structure AttachStore where
  pinned : List PinnedAttach
  showIssue : String → Option Issue

/-- One reported invalid attachment. -/
structure AttachViolation where
  pinnedBeadID : String
  moleculeID : String
  reason : String
deriving DecidableEq, Repr

/-- The per-record body of `checkBeadsDir`: skip records without an
attachment; a failing lookup is `not_found`, a closed molecule is
`closed`. -/
def checkAttachOne (showIssue : String → Option Issue)
    (p : PinnedAttach) : Option AttachViolation :=
  if p.attachedMolecule = "" then none
  else
    match showIssue p.attachedMolecule with
    | none => some ⟨p.id, p.attachedMolecule, "not_found"⟩
    | some molecule =>
        if molecule.Status = "closed" then
          some ⟨p.id, p.attachedMolecule, "closed"⟩
        else none

/-- `HookAttachmentValidCheck.Run` on one store partition. -/
def attachRun (st : AttachStore) : List AttachViolation :=
  st.pinned.filterMap (checkAttachOne st.showIssue)

/-- Modelled from the spec: `beads.DetachMolecule` (not under src/) clears
the attached-molecule reference of the named pinned record. -/
def detachMolecule (st : AttachStore) (pid : String) : AttachStore :=
  { st with
    pinned := st.pinned.map (fun p =>
      if p.id = pid then { p with attachedMolecule := "" } else p) }

/-- `HookAttachmentValidCheck.Fix`: detach each violation reported by the
preceding `Run`. -/
def attachFix (st : AttachStore) : AttachStore :=
  (attachRun st).foldl (fun s v => detachMolecule s v.pinnedBeadID) st

/-- Concrete closed molecule `gt-9`. -/
def molW : Issue :=
  ⟨"gt-9", "Stale molecule", "closed", "task", "", "", "", "", "", "",
    [], [], []⟩

/-- Concrete pinned record attached to `gt-9`. -/
def pinnedW : PinnedAttach := ⟨"gt-hook-1", "gt-9"⟩

/-- Concrete resolver for the attachment witness. -/
def showAttachW (id : String) : Option Issue :=
  if id == "gt-9" then some molW else none

/-- A bead of one store partition as seen by the singleton check. -/
structure HandoffBead where
  id : String
  title : String
  status : String
  closeReason : String
deriving DecidableEq, Repr

/-- The pinned listing (`List` with status filter `pinned`). -/
def listPinned (store : List HandoffBead) : List HandoffBead :=
  store.filter (fun b => b.status == "pinned")

/-- Title test of the singleton check: ends with `" Handoff"`. -/
def titleIsHandoff (t : String) : Bool :=
  leadsWith " Handoff".data.reverse t.data.reverse

/-- Append an id to its title group, keeping first-appearance group
order (the Go `titleToIDs` map keyed by title). -/
def addToGroups : List (String × List String) → String → String →
    List (String × List String)
  | [], t, i => [(t, [i])]
  | (t0, ids) :: rest, t, i =>
      if t0 = t then (t0, ids ++ [i]) :: rest
      else (t0, ids) :: addToGroups rest t i

/-- Group the pinned beads with handoff titles by exact title, ids in
store list order. -/
def handoffGroups (pinnedBeads : List HandoffBead) :
    List (String × List String) :=
  pinnedBeads.foldl (fun gs b =>
    if titleIsHandoff b.title then addToGroups gs b.title b.id else gs) []

/-- `HookSingletonCheck.Run` on one store partition: the title groups with
more than one member. -/
def singletonRun (store : List HandoffBead) : List (String × List String) :=
  (handoffGroups (listPinned store)).filter (fun g => 1 < g.2.length)

/-- Modelled from the spec: `beads.CloseWithReason` (not under src/) closes
each named bead with the audit reason. -/
def closeWithReason (store : List HandoffBead) (reason : String)
    (ids : List String) : List HandoffBead :=
  store.map (fun b =>
    if b.id ∈ ids then { b with status := "closed", closeReason := reason }
    else b)

/-- `HookSingletonCheck.Fix`: close every member but the first of each
duplicate group reported by the preceding `Run`. -/
def singletonFix (store : List HandoffBead) : List HandoffBead :=
  (singletonRun store).foldl (fun s g =>
    if 0 < (g.2.drop 1).length then
      closeWithReason s "duplicate handoff bead" (g.2.drop 1)
    else s) store

/-- Concrete singleton-check store: three pinned handoff beads in list
order A, B, C, all titled `Polecat Handoff`. -/
def storeABC : List HandoffBead :=
  [⟨"gt-1", "Polecat Handoff", "pinned", ""⟩,
   ⟨"gt-2", "Polecat Handoff", "pinned", ""⟩,
   ⟨"gt-3", "Polecat Handoff", "pinned", ""⟩]

/-! ## Theorems -/

/-- Claim C1: the change classifier follows the documented priority:
liveness, then hook id, then lifecycle state, then the catch-all. -/
theorem detectChangeType_priority (prev curr : agentSnapshot)
    (_hne : prev ≠ curr) :
    (prev.Running ≠ curr.Running →
      detectChangeType prev curr
        = (if curr.Running then "started" else "stopped")) ∧
    (prev.Running = curr.Running → prev.HookBead ≠ curr.HookBead →
      detectChangeType prev curr
        = (if curr.HookBead ≠ "" then "work_assigned" else "work_completed")) ∧
    (prev.Running = curr.Running → prev.HookBead = curr.HookBead →
      prev.State ≠ curr.State →
      detectChangeType prev curr = "state_changed") ∧
    (prev.Running = curr.Running → prev.HookBead = curr.HookBead →
      prev.State = curr.State →
      detectChangeType prev curr = "updated") ∧
    (prev.Running ≠ curr.Running → prev.HookBead ≠ curr.HookBead →
      detectChangeType prev curr = "started" ∨
        detectChangeType prev curr = "stopped") := by
  refine ⟨?_, ?_, ?_, ?_, ?_⟩ <;> intros <;> simp_all [detectChangeType]

/-- Witness for C1: a simultaneous liveness flip and hook change on concrete
tuples is classified by liveness. -/
theorem detectChangeType_priority_witness :
    (agentSnapshot.mk true true "gt-1" "working" "t"
        ≠ agentSnapshot.mk false false "" "working" "t") ∧
    ((agentSnapshot.mk true true "gt-1" "working" "t").Running
        ≠ (agentSnapshot.mk false false "" "working" "t").Running →
      detectChangeType (agentSnapshot.mk true true "gt-1" "working" "t")
          (agentSnapshot.mk false false "" "working" "t")
        = (if (agentSnapshot.mk false false "" "working" "t").Running
            then "started" else "stopped")) :=
  ⟨by decide,
    (detectChangeType_priority
      (agentSnapshot.mk true true "gt-1" "working" "t")
      (agentSnapshot.mk false false "" "working" "t") (by decide)).1⟩

/-- A lookup misses exactly when no entry carries the key. -/
theorem lookup_eq_none_iff_keys {β : Type} (a : String)
    (l : List (String × β)) :
    List.lookup a l = none ↔ ∀ p ∈ l, p.1 ≠ a := by
  induction l with
  | nil => simp
  | cons hd tl ih =>
    obtain ⟨k, v⟩ := hd
    by_cases h : a = k
    · subst h
      simp [List.lookup_cons]
    · simp only [List.lookup_cons, beq_false_of_ne h, List.mem_cons]
      rw [ih]
      constructor
      · rintro hall p (rfl | hp)
        · exact fun he => h he.symm
        · exact hall p hp
      · intro hall p hp
        exact hall p (Or.inr hp)

/-- With pairwise-distinct keys, membership determines the lookup result. -/
theorem lookup_eq_some_of_mem_nodup {β : Type} {a : String} {b : β}
    {l : List (String × β)} (hnd : (l.map Prod.fst).Nodup)
    (hmem : (a, b) ∈ l) : List.lookup a l = some b := by
  induction l with
  | nil => simp at hmem
  | cons hd tl ih =>
    obtain ⟨k, v⟩ := hd
    simp only [List.map_cons, List.nodup_cons] at hnd
    rcases List.mem_cons.mp hmem with heq | hmem'
    · obtain ⟨rfl, rfl⟩ := Prod.mk.inj heq.symm
      simp [List.lookup_cons]
    · have hne : a ≠ k := by
        rintro rfl
        exact hnd.1 (List.mem_map.mpr ⟨(a, b), hmem', rfl⟩)
      simp only [List.lookup_cons, beq_false_of_ne hne]
      exact ih hnd.2 hmem'

/-- A missed key filters to the empty entry list. -/
theorem filter_key_eq_nil {β : Type} {a : String} {l : List (String × β)}
    (h : List.lookup a l = none) :
    l.filter (fun p => p.1 == a) = [] := by
  rw [List.filter_eq_nil_iff]
  intro p hp
  simpa using (lookup_eq_none_iff_keys a l).mp h p hp

/-- With pairwise-distinct keys, a hit key filters to its single entry. -/
theorem filter_key_eq_single {β : Type} {a : String} {b : β}
    {l : List (String × β)} (hnd : (l.map Prod.fst).Nodup)
    (h : List.lookup a l = some b) :
    l.filter (fun p => p.1 == a) = [(a, b)] := by
  induction l with
  | nil => simp at h
  | cons hd tl ih =>
    obtain ⟨k, v⟩ := hd
    simp only [List.map_cons, List.nodup_cons] at hnd
    by_cases he : a = k
    · subst he
      simp only [List.lookup_cons, BEq.refl] at h
      obtain rfl : v = b := by simpa using h
      have htl : tl.filter (fun p => p.1 == a) = [] := by
        apply filter_key_eq_nil
        rw [lookup_eq_none_iff_keys]
        intro p hp hpa
        exact hnd.1 (List.mem_map.mpr ⟨p, hp, hpa⟩)
      simp [List.filter_cons, htl]
    · simp only [List.lookup_cons, beq_false_of_ne he] at h
      have hk : (k == a) = false := beq_false_of_ne (fun x => he x.symm)
      simp [List.filter_cons, hk, ih hnd.2 h]

/-- Lookup distributes over concatenation, preferring the left list. -/
theorem lookup_append {β : Type} (a : String) (l₁ l₂ : List (String × β)) :
    List.lookup a (l₁ ++ l₂)
      = match List.lookup a l₁ with
        | some b => some b
        | none => List.lookup a l₂ := by
  induction l₁ with
  | nil => simp
  | cons hd tl ih =>
    obtain ⟨k, v⟩ := hd
    by_cases he : a = k
    · subst he
      simp [List.lookup_cons]
    · simp only [List.cons_append, List.lookup_cons, beq_false_of_ne he]
      exact ih

/-- Filtering produced events by address commutes with production, whenever
each produced event carries the address of its source entry. -/
theorem filter_address_filterMap (l : List (String × agentSnapshot))
    (f : String × agentSnapshot → Option AgentEvent)
    (hf : ∀ p e, f p = some e → e.address = p.1) (addr : String) :
    (l.filterMap f).filter (fun e => e.address == addr)
      = (l.filter (fun p => p.1 == addr)).filterMap f := by
  induction l with
  | nil => simp
  | cons hd tl ih =>
    rw [List.filterMap_cons, List.filter_cons]
    cases hfd : f hd with
    | none =>
      by_cases hk : hd.1 = addr
      · simp [hk, List.filterMap_cons, hfd, ih]
      · simp [beq_false_of_ne hk, ih]
    | some e =>
      have he : e.address = hd.1 := hf hd e hfd
      by_cases hk : hd.1 = addr
      · rw [List.filter_cons]
        simp [he, hk, List.filterMap_cons, hfd, ih]
      · rw [List.filter_cons]
        simp [he, beq_false_of_ne hk, ih]

/-- Events from the current-map pass carry the entry key as address. -/
theorem currEvent_address (prev : List (String × agentSnapshot)) :
    ∀ p e, currEvent prev p = some e → e.address = p.1 := by
  intro p e h
  unfold currEvent at h
  split at h
  · cases h
    rfl
  · split at h
    · cases h
      rfl
    · cases h

/-- Events from the previous-map pass carry the entry key as address. -/
theorem prevEvent_address (curr : List (String × agentSnapshot)) :
    ∀ p e, prevEvent curr p = some e → e.address = p.1 := by
  intro p e h
  unfold prevEvent at h
  split at h
  · cases h
    rfl
  · cases h

/-- Claim C2: in one diff cycle, a freshly appeared address yields exactly
one `connected` event, a vanished address yields exactly one `disconnected`
event, an address present on both sides with identical tuple yields no
event, and the new map becomes the stored previous snapshot. -/
theorem checkForChanges_events (prev curr : List (String × agentSnapshot))
    (hnp : (prev.map Prod.fst).Nodup) (hnc : (curr.map Prod.fst).Nodup) :
    (∀ addr c, (addr, c) ∈ curr → List.lookup addr prev = none →
      eventsFor addr (checkForChanges prev curr).1
        = [⟨addr, "connected", c⟩]) ∧
    (∀ addr p, (addr, p) ∈ prev → List.lookup addr curr = none →
      eventsFor addr (checkForChanges prev curr).1
        = [⟨addr, "disconnected", p⟩]) ∧
    (∀ addr v, List.lookup addr curr = some v →
      List.lookup addr prev = some v →
      eventsFor addr (checkForChanges prev curr).1 = []) ∧
    (checkForChanges prev curr).2 = curr := by
  refine ⟨?_, ?_, ?_, rfl⟩
  · intro addr c hmem hprev
    unfold checkForChanges eventsFor
    rw [List.filter_append,
      filter_address_filterMap curr (currEvent prev) (currEvent_address prev),
      filter_address_filterMap prev (prevEvent curr) (prevEvent_address curr),
      filter_key_eq_single hnc (lookup_eq_some_of_mem_nodup hnc hmem),
      filter_key_eq_nil hprev]
    simp [currEvent, hprev]
  · intro addr p hmem hcurr
    unfold checkForChanges eventsFor
    rw [List.filter_append,
      filter_address_filterMap curr (currEvent prev) (currEvent_address prev),
      filter_address_filterMap prev (prevEvent curr) (prevEvent_address curr),
      filter_key_eq_nil hcurr,
      filter_key_eq_single hnp (lookup_eq_some_of_mem_nodup hnp hmem)]
    simp [prevEvent, hcurr]
  · intro addr v hcurr hprev
    unfold checkForChanges eventsFor
    rw [List.filter_append,
      filter_address_filterMap curr (currEvent prev) (currEvent_address prev),
      filter_address_filterMap prev (prevEvent curr) (prevEvent_address curr),
      filter_key_eq_single hnc hcurr,
      filter_key_eq_single hnp hprev]
    simp [currEvent, prevEvent, hcurr, hprev]

/-- Witness for C2: a concrete cycle where one agent appears, one vanishes
and one is unchanged. -/
theorem checkForChanges_events_witness :
    (((([("a", agentSnapshot.mk true false "" "" ""),
         ("b", agentSnapshot.mk true false "" "" "")]
          : List (String × agentSnapshot)).map Prod.fst).Nodup) ∧
      ((([("b", agentSnapshot.mk true false "" "" ""),
          ("c", agentSnapshot.mk false false "" "" "")]
          : List (String × agentSnapshot)).map Prod.fst).Nodup)) ∧
    eventsFor "c"
        (checkForChanges
          [("a", agentSnapshot.mk true false "" "" ""),
           ("b", agentSnapshot.mk true false "" "" "")]
          [("b", agentSnapshot.mk true false "" "" ""),
           ("c", agentSnapshot.mk false false "" "" "")]).1
      = [⟨"c", "connected", agentSnapshot.mk false false "" "" ""⟩] :=
  ⟨⟨by decide, by decide⟩,
    (checkForChanges_events
        [("a", agentSnapshot.mk true false "" "" ""),
         ("b", agentSnapshot.mk true false "" "" "")]
        [("b", agentSnapshot.mk true false "" "" ""),
         ("c", agentSnapshot.mk false false "" "" "")]
        (by decide) (by decide)).1
      "c" (agentSnapshot.mk false false "" "" "") (by decide) (by decide)⟩

/-- A slash occurs in every rig-agent address. -/
theorem slash_mem_address (a b : String) :
    ('/' : Char) ∈ (a ++ "/" ++ b).data := by
  rw [String.data_append, String.data_append]
  refine List.mem_append.mpr (Or.inl (List.mem_append.mpr (Or.inr ?_)))
  simp [show ("/" : String).data = ['/'] from rfl]

/-- Rig-agent addresses are never the bare global names. -/
theorem rig_address_ne_global (a b g : String)
    (hg : ('/' : Char) ∉ g.data) : a ++ "/" ++ b ≠ g := by
  intro h
  exact hg (h ▸ slash_mem_address a b)

/-- Every key contributed by a rig has the `rig/name` shape. -/
theorem rigSnaps_key_shape (r : Rig) (sessions : List String)
    (agentBeads hookBeads : List (String × Issue))
    (parse : String → Option AgentFields) :
    ∀ p ∈ rigSnaps r sessions agentBeads hookBeads parse,
      ∃ x y, p.1 = x ++ "/" ++ y := by
  intro p hp
  unfold rigSnaps at hp
  rcases List.mem_append.mp hp with hp' | hrf
  · rcases List.mem_append.mp hp' with hp'' | hw
    · rcases List.mem_append.mp hp'' with hpc | hcr
      · obtain ⟨n, _, rfl⟩ := List.mem_map.mp hpc
        exact ⟨r.Name, n, rfl⟩
      · obtain ⟨n, _, rfl⟩ := List.mem_map.mp hcr
        exact ⟨r.Name, n, rfl⟩
    · by_cases hwit : r.HasWitness
      · rw [if_pos hwit] at hw
        rcases List.mem_singleton.mp hw with rfl
        exact ⟨r.Name, "witness", rfl⟩
      · rw [if_neg hwit] at hw
        cases hw
  · by_cases href : r.HasRefinery
    · rw [if_pos href] at hrf
      rcases List.mem_singleton.mp hrf with rfl
      exact ⟨r.Name, "refinery", rfl⟩
    · rw [if_neg href] at hrf
      cases hrf

/-- No rig contributes an entry for a slash-free (global) key. -/
theorem rigs_filter_global_nil (rigs : List Rig) (sessions : List String)
    (agentBeads hookBeads : List (String × Issue))
    (parse : String → Option AgentFields) (g : String)
    (hg : ('/' : Char) ∉ g.data) :
    ((rigs.map (fun r => rigSnaps r sessions agentBeads hookBeads
        parse)).flatten).filter (fun p => p.1 == g) = [] := by
  rw [List.filter_eq_nil_iff]
  intro p hp
  rcases List.mem_flatten.mp hp with ⟨l, hl, hpl⟩
  obtain ⟨r, _, rfl⟩ := List.mem_map.mp hl
  obtain ⟨x, y, hxy⟩ := rigSnaps_key_shape r sessions agentBeads hookBeads
    parse p hpl
  simpa [hxy] using rig_address_ne_global x y g hg

/-- No rig entry resolves a slash-free (global) key. -/
theorem rigs_lookup_global_none (rigs : List Rig) (sessions : List String)
    (agentBeads hookBeads : List (String × Issue))
    (parse : String → Option AgentFields) (g : String)
    (hg : ('/' : Char) ∉ g.data) :
    List.lookup g ((rigs.map (fun r => rigSnaps r sessions agentBeads
        hookBeads parse)).flatten) = none := by
  rw [lookup_eq_none_iff_keys]
  intro p hp
  rcases List.mem_flatten.mp hp with ⟨l, hl, hpl⟩
  obtain ⟨r, _, rfl⟩ := List.mem_map.mp hl
  obtain ⟨x, y, hxy⟩ := rigSnaps_key_shape r sessions agentBeads hookBeads
    parse p hpl
  rw [hxy]
  exact rig_address_ne_global x y g hg

/-- The global part of a snapshot in explicit normal form. -/
theorem globalSnaps_eq (sessions : List String) :
    globalSnaps sessions =
      (if sessions.contains "gt-mayor" then [("mayor", runningOnlySnap true)]
        else [])
      ++ (if sessions.contains "gt-deacon" then
          [("deacon", runningOnlySnap true)] else []) := by
  unfold globalSnaps
  by_cases h1 : "gt-mayor" ∈ sessions <;> by_cases h2 : "gt-deacon" ∈ sessions <;>
    simp [List.filterMap_cons,
      show ("gt-" ++ "mayor" : String) = "gt-mayor" from rfl,
      show ("gt-" ++ "deacon" : String) = "gt-deacon" from rfl, h1, h2]

/-- Entries of the whole snapshot keyed by a global name come only from the
global part. -/
theorem snapshot_filter_global (rigs : List Rig) (sessions : List String)
    (agentBeads hookBeads : List (String × Issue))
    (parse : String → Option AgentFields) (g : String)
    (hg : ('/' : Char) ∉ g.data) :
    (getAgentSnapshots rigs sessions agentBeads hookBeads parse).filter
        (fun p => p.1 == g)
      = (globalSnaps sessions).filter (fun p => p.1 == g) := by
  unfold getAgentSnapshots
  rw [List.filter_append,
    rigs_filter_global_nil rigs sessions agentBeads hookBeads parse g hg,
    List.append_nil]

/-- A global agent appears in the snapshot exactly while its session is
live, and then with the running-only tuple (mayor case). -/
theorem snapshot_lookup_mayor (rigs : List Rig) (sessions : List String)
    (agentBeads hookBeads : List (String × Issue))
    (parse : String → Option AgentFields) :
    List.lookup "mayor" (getAgentSnapshots rigs sessions agentBeads
        hookBeads parse)
      = if sessions.contains "gt-mayor" then some (runningOnlySnap true)
        else none := by
  unfold getAgentSnapshots
  rw [lookup_append, globalSnaps_eq,
    rigs_lookup_global_none rigs sessions agentBeads hookBeads parse "mayor"
      (by decide)]
  by_cases h1 : "gt-mayor" ∈ sessions <;> by_cases h2 : "gt-deacon" ∈ sessions <;>
    simp [h1, h2, List.lookup_cons]

/-- A global agent appears in the snapshot exactly while its session is
live, and then with the running-only tuple (deacon case). -/
theorem snapshot_lookup_deacon (rigs : List Rig) (sessions : List String)
    (agentBeads hookBeads : List (String × Issue))
    (parse : String → Option AgentFields) :
    List.lookup "deacon" (getAgentSnapshots rigs sessions agentBeads
        hookBeads parse)
      = if sessions.contains "gt-deacon" then some (runningOnlySnap true)
        else none := by
  unfold getAgentSnapshots
  rw [lookup_append, globalSnaps_eq,
    rigs_lookup_global_none rigs sessions agentBeads hookBeads parse "deacon"
      (by decide)]
  by_cases h1 : "gt-mayor" ∈ sessions <;> by_cases h2 : "gt-deacon" ∈ sessions <;>
    simp [h1, h2, List.lookup_cons]

/-- Snapshot entries keyed by a global name, in explicit form (mayor). -/
theorem snapshot_filter_mayor (rigs : List Rig) (sessions : List String)
    (agentBeads hookBeads : List (String × Issue))
    (parse : String → Option AgentFields) :
    (getAgentSnapshots rigs sessions agentBeads hookBeads parse).filter
        (fun p => p.1 == "mayor")
      = if sessions.contains "gt-mayor" then [("mayor", runningOnlySnap true)]
        else [] := by
  rw [snapshot_filter_global rigs sessions agentBeads hookBeads parse "mayor"
    (by decide), globalSnaps_eq]
  by_cases h1 : "gt-mayor" ∈ sessions <;> by_cases h2 : "gt-deacon" ∈ sessions <;>
    simp [h1, h2, List.filter_cons]

/-- Snapshot entries keyed by a global name, in explicit form (deacon). -/
theorem snapshot_filter_deacon (rigs : List Rig) (sessions : List String)
    (agentBeads hookBeads : List (String × Issue))
    (parse : String → Option AgentFields) :
    (getAgentSnapshots rigs sessions agentBeads hookBeads parse).filter
        (fun p => p.1 == "deacon")
      = if sessions.contains "gt-deacon" then
          [("deacon", runningOnlySnap true)] else [] := by
  rw [snapshot_filter_global rigs sessions agentBeads hookBeads parse "deacon"
    (by decide), globalSnaps_eq]
  by_cases h1 : "gt-mayor" ∈ sessions <;> by_cases h2 : "gt-deacon" ∈ sessions <;>
    simp [h1, h2, List.filter_cons]

/-- Events of one cycle for an agent name that the current snapshot holds
only as a running-only entry, and only while `lives` is true. -/
theorem globalAgentEvents (prev curr : List (String × agentSnapshot))
    (name : String) (lives : Bool)
    (hnp : (prev.map Prod.fst).Nodup)
    (hfil : curr.filter (fun p => p.1 == name)
      = if lives then [(name, runningOnlySnap true)] else [])
    (hlook : List.lookup name curr
      = if lives then some (runningOnlySnap true) else none) :
    (lives = true → List.lookup name prev = none →
      eventsFor name (checkForChanges prev curr).1
        = [⟨name, "connected", runningOnlySnap true⟩]) ∧
    (lives = true → List.lookup name prev = some (runningOnlySnap true) →
      eventsFor name (checkForChanges prev curr).1 = []) ∧
    (lives = false → ∀ p, List.lookup name prev = some p →
      eventsFor name (checkForChanges prev curr).1
        = [⟨name, "disconnected", p⟩]) ∧
    (lives = false → List.lookup name prev = none →
      eventsFor name (checkForChanges prev curr).1 = []) := by
  have hsplit : eventsFor name (checkForChanges prev curr).1
      = (curr.filter (fun p => p.1 == name)).filterMap (currEvent prev)
        ++ (prev.filter (fun p => p.1 == name)).filterMap (prevEvent curr) := by
    unfold checkForChanges eventsFor
    rw [List.filter_append,
      filter_address_filterMap curr (currEvent prev) (currEvent_address prev),
      filter_address_filterMap prev (prevEvent curr) (prevEvent_address curr)]
  refine ⟨?_, ?_, ?_, ?_⟩
  · rintro rfl hprev
    rw [hsplit, hfil, filter_key_eq_nil hprev]
    simp [currEvent, hprev]
  · rintro rfl hprev
    rw [hsplit, hfil, filter_key_eq_single hnp hprev]
    simp only [if_pos trivial] at hlook ⊢
    simp [currEvent, prevEvent, hprev, hlook]
  · rintro rfl p hprev
    rw [hsplit, hfil, filter_key_eq_single hnp hprev]
    simp only [Bool.false_eq_true, if_neg] at hlook ⊢
    simp [prevEvent, hlook]
  · rintro rfl hprev
    rw [hsplit, hfil, filter_key_eq_nil hprev]
    simp

/-- Claim C10: mayor and deacon enter the snapshot map only while their
session is live; a session end therefore surfaces as exactly one
`disconnected` event and a session start as exactly one `connected` event
(so never as `stopped`/`started`). -/
theorem global_agent_lifecycle (rigs : List Rig) (sessions : List String)
    (agentBeads hookBeads : List (String × Issue))
    (parse : String → Option AgentFields)
    (prev : List (String × agentSnapshot))
    (hnp : (prev.map Prod.fst).Nodup) :
    (List.lookup "mayor" (getAgentSnapshots rigs sessions agentBeads
        hookBeads parse)
      = if sessions.contains "gt-mayor" then some (runningOnlySnap true)
        else none) ∧
    (List.lookup "deacon" (getAgentSnapshots rigs sessions agentBeads
        hookBeads parse)
      = if sessions.contains "gt-deacon" then some (runningOnlySnap true)
        else none) ∧
    (sessions.contains "gt-mayor" = false →
      ∀ p, List.lookup "mayor" prev = some p →
        eventsFor "mayor" (checkForChanges prev (getAgentSnapshots rigs
            sessions agentBeads hookBeads parse)).1
          = [⟨"mayor", "disconnected", p⟩]) ∧
    (sessions.contains "gt-mayor" = true →
      List.lookup "mayor" prev = none →
        eventsFor "mayor" (checkForChanges prev (getAgentSnapshots rigs
            sessions agentBeads hookBeads parse)).1
          = [⟨"mayor", "connected", runningOnlySnap true⟩]) ∧
    (sessions.contains "gt-deacon" = false →
      ∀ p, List.lookup "deacon" prev = some p →
        eventsFor "deacon" (checkForChanges prev (getAgentSnapshots rigs
            sessions agentBeads hookBeads parse)).1
          = [⟨"deacon", "disconnected", p⟩]) ∧
    (sessions.contains "gt-deacon" = true →
      List.lookup "deacon" prev = none →
        eventsFor "deacon" (checkForChanges prev (getAgentSnapshots rigs
            sessions agentBeads hookBeads parse)).1
          = [⟨"deacon", "connected", runningOnlySnap true⟩]) := by
  have hm := globalAgentEvents prev
    (getAgentSnapshots rigs sessions agentBeads hookBeads parse)
    "mayor" (sessions.contains "gt-mayor") hnp
    (snapshot_filter_mayor rigs sessions agentBeads hookBeads parse)
    (snapshot_lookup_mayor rigs sessions agentBeads hookBeads parse)
  have hd := globalAgentEvents prev
    (getAgentSnapshots rigs sessions agentBeads hookBeads parse)
    "deacon" (sessions.contains "gt-deacon") hnp
    (snapshot_filter_deacon rigs sessions agentBeads hookBeads parse)
    (snapshot_lookup_deacon rigs sessions agentBeads hookBeads parse)
  exact ⟨snapshot_lookup_mayor rigs sessions agentBeads hookBeads parse,
    snapshot_lookup_deacon rigs sessions agentBeads hookBeads parse,
    hm.2.2.1, hm.1, hd.2.2.1, hd.1⟩

/-- Witness for C10: with no live sessions and a previous snapshot that
held the mayor, the cycle emits exactly a `disconnected` event. -/
theorem global_agent_lifecycle_witness :
    ((([("mayor", runningOnlySnap true)]
        : List (String × agentSnapshot)).map Prod.fst).Nodup ∧
      ([] : List String).contains "gt-mayor" = false ∧
      List.lookup "mayor" [("mayor", runningOnlySnap true)]
        = some (runningOnlySnap true)) ∧
    eventsFor "mayor"
        (checkForChanges [("mayor", runningOnlySnap true)]
          (getAgentSnapshots [] [] [] [] (fun _ => none))).1
      = [⟨"mayor", "disconnected", runningOnlySnap true⟩] :=
  ⟨⟨by decide, by decide, by decide⟩,
    (global_agent_lifecycle [] [] [] [] (fun _ => none)
        [("mayor", runningOnlySnap true)] (by decide)).2.2.1
      (by decide) (runningOnlySnap true) (by decide)⟩

/-- A publish never changes an observer identity. -/
theorem publishOne_id (topic msg : String) (c e : WSClient)
    (h : publishOne topic msg c = some e) : e.id = c.id := by
  unfold publishOne at h
  split at h
  · split at h
    · cases h
      rfl
    · cases h
  · cases h
    rfl

/-- Members mapping to pairwise-distinct values are equal when their values
are. -/
theorem eq_of_mem_of_nodup_map {α β : Type} {f : α → β} {l : List α}
    (h : (l.map f).Nodup) {a b : α} (ha : a ∈ l) (hb : b ∈ l)
    (hf : f a = f b) : a = b := by
  induction l with
  | nil => cases ha
  | cons hd tl ih =>
    simp only [List.map_cons, List.nodup_cons] at h
    rcases List.mem_cons.mp ha with rfl | ha' <;>
      rcases List.mem_cons.mp hb with rfl | hb'
    · rfl
    · exact absurd (List.mem_map.mpr ⟨b, hb', hf.symm⟩) h.1
    · exact absurd (List.mem_map.mpr ⟨a, ha', hf⟩) h.1
    · exact ih h.2 ha' hb'

/-- Claim C3: on one publish step, a subscribed observer with a full queue
is removed from the registry and its queue is released, while every other
registered subscribed observer with room receives the message and an
unsubscribed observer is untouched. -/
theorem publishStep_backpressure (clients : List WSClient)
    (topic msg : String) (c : WSClient)
    (hnd : (clients.map WSClient.id).Nodup) (hc : c ∈ clients) :
    (isSubscribed c topic = true → ¬ c.send.length < c.sendCap →
      (∀ e ∈ publishStep clients topic msg, e.id ≠ c.id) ∧
        c ∈ droppedClients clients topic) ∧
    (isSubscribed c topic = true → c.send.length < c.sendCap →
      enqueueFrame c msg ∈ publishStep clients topic msg) ∧
    (isSubscribed c topic = false → c ∈ publishStep clients topic msg) := by
  refine ⟨?_, ?_, ?_⟩
  · intro hsub hfull
    constructor
    · intro e he heid
      obtain ⟨o, ho, hoe⟩ := List.mem_filterMap.mp he
      have hido : o.id = c.id := (publishOne_id topic msg o e hoe) ▸ heid
      have : o = c := eq_of_mem_of_nodup_map hnd ho hc hido
      subst this
      rw [publishOne, if_pos hsub, if_neg hfull] at hoe
      cases hoe
    · unfold droppedClients
      rw [List.mem_filter]
      exact ⟨hc, by simp [hsub, hfull]⟩
  · intro hsub hroom
    exact List.mem_filterMap.mpr
      ⟨c, hc, by rw [publishOne, if_pos hsub, if_pos hroom]; rfl⟩
  · intro hsub
    exact List.mem_filterMap.mpr
      ⟨c, hc, by rw [publishOne, if_neg (by simp [hsub])]⟩

/-- Witness for C3: one full subscribed observer is dropped while a second
observer with room still receives the publish. -/
theorem publishStep_backpressure_witness :
    (([WSClient.mk 1 ["all"] ["q"] 1,
        WSClient.mk 2 ["all"] [] 1].map WSClient.id).Nodup ∧
      WSClient.mk 1 ["all"] ["q"] 1
        ∈ [WSClient.mk 1 ["all"] ["q"] 1, WSClient.mk 2 ["all"] [] 1] ∧
      isSubscribed (WSClient.mk 1 ["all"] ["q"] 1) "agent_update" = true ∧
      ¬ (WSClient.mk 1 ["all"] ["q"] 1).send.length
          < (WSClient.mk 1 ["all"] ["q"] 1).sendCap) ∧
    (∀ e ∈ publishStep [WSClient.mk 1 ["all"] ["q"] 1,
        WSClient.mk 2 ["all"] [] 1] "agent_update" "m",
      e.id ≠ (WSClient.mk 1 ["all"] ["q"] 1).id) ∧
    WSClient.mk 1 ["all"] ["q"] 1
      ∈ droppedClients [WSClient.mk 1 ["all"] ["q"] 1,
          WSClient.mk 2 ["all"] [] 1] "agent_update" :=
  ⟨⟨by decide, by decide, by decide, by decide⟩,
    (publishStep_backpressure
      [WSClient.mk 1 ["all"] ["q"] 1, WSClient.mk 2 ["all"] [] 1]
      "agent_update" "m" (WSClient.mk 1 ["all"] ["q"] 1)
      (by decide) (by decide)).1 (by decide) (by decide)⟩

/-- Membership after a `subscribe` is the union of old and new topics. -/
theorem subscribeTopics_mem (newTopics topics : List String) (t : String) :
    t ∈ subscribeTopics topics newTopics ↔ t ∈ topics ∨ t ∈ newTopics := by
  induction newTopics generalizing topics with
  | nil => simp [subscribeTopics]
  | cons hd tl ih =>
    unfold subscribeTopics at *
    rw [List.foldl_cons, ih]
    by_cases hmem : hd ∈ topics
    · rw [if_pos hmem]
      constructor
      · rintro (h | h)
        · exact Or.inl h
        · exact Or.inr (List.mem_cons_of_mem _ h)
      · rintro (h | h)
        · exact Or.inl h
        · rcases List.mem_cons.mp h with rfl | h'
          · exact Or.inl hmem
          · exact Or.inr h'
    · rw [if_neg hmem]
      constructor
      · rintro (h | h)
        · rcases List.mem_append.mp h with h' | h'
          · exact Or.inl h'
          · exact Or.inr (List.mem_cons.mpr
              (Or.inl (List.mem_singleton.mp h')))
        · exact Or.inr (List.mem_cons_of_mem _ h)
      · rintro (h | h)
        · exact Or.inl (List.mem_append.mpr (Or.inl h))
        · rcases List.mem_cons.mp h with rfl | h'
          · exact Or.inl (List.mem_append.mpr (Or.inr (List.mem_singleton.mpr
              rfl)))
          · exact Or.inr h'

/-- Counterexample to claim C8: a previously held topic survives a
subscription update that does not mention it, so the resulting set is not
exactly the topics of the message. -/
theorem readPumpHandle_keeps_old_topics :
    "status" ∈ readPumpHandle ["status"] (some ["agents"]) ∧
      "status" ∉ (["agents"] : List String) := by
  constructor
  · decide
  · decide

/-- Claim C8 (amended): a subscription message with a non-empty topic list
makes the observer subscription set the union of its previous set and the
message topics (topics are added, never removed), and any other input
leaves the set unchanged. -/
theorem readPumpHandle_spec (topics msgTopics : List String) :
    (msgTopics ≠ [] →
      ∀ t, t ∈ readPumpHandle topics (some msgTopics)
        ↔ t ∈ topics ∨ t ∈ msgTopics) ∧
    readPumpHandle topics (some []) = topics ∧
    readPumpHandle topics none = topics := by
  refine ⟨?_, rfl, rfl⟩
  intro hne t
  simp only [readPumpHandle]
  rw [if_pos (List.length_pos.mpr hne)]
  exact subscribeTopics_mem msgTopics topics t

/-- Witness for C8 (amended): on a concrete update both the old and the new
topic are present afterwards. -/
theorem readPumpHandle_spec_witness :
    ((["agents"] : List String) ≠ [] ∧
      ("status" ∈ readPumpHandle ["status"] (some ["agents"])
        ↔ "status" ∈ (["status"] : List String)
          ∨ "status" ∈ (["agents"] : List String))) :=
  ⟨by decide,
    (readPumpHandle_spec ["status"] ["agents"]).1 (by decide) "status"⟩

/-- A polecat/crew entry increments the hook counter exactly when it got a
non-empty hook id. -/
theorem rigAgentEntryCore_snd_eq (rigName name role : String)
    (sessions : List String) (agentBeads hookBeads : List (String × Issue))
    (parse : String → Option AgentFields) :
    (rigAgentEntryCore rigName name role sessions agentBeads hookBeads
        parse).2
      = if (rigAgentEntryCore rigName name role sessions agentBeads
          hookBeads parse).1.HookBead = "" then 0 else 1 := by
  rcases hl : List.lookup (rigName ++ "/" ++ name) agentBeads with _ | bead
  · simp [rigAgentEntryCore, hl]
  · by_cases hk : resolveHookID bead parse = ""
    · simp [rigAgentEntryCore, hl, hk]
    · simp [rigAgentEntryCore, hl, hk]

/-- The mail pass changes neither the hook id nor the counter. -/
theorem rigAgentEntry_snd_eq (rigName name role : String)
    (sessions : List String) (agentBeads hookBeads : List (String × Issue))
    (parse : String → Option AgentFields) (unread : String → Nat)
    (fastMode : Bool) :
    (rigAgentEntry rigName name role sessions agentBeads hookBeads parse
        unread fastMode).2
      = if (rigAgentEntry rigName name role sessions agentBeads hookBeads
          parse unread fastMode).1.HookBead = "" then 0 else 1 := by
  unfold rigAgentEntry
  cases fastMode <;>
    simp [rigAgentEntryCore_snd_eq rigName name role sessions agentBeads
      hookBeads parse]

/-- Summing the per-entry counters of a roster equals counting its agents
with a non-empty hook. -/
theorem sum_snd_eq_countP_hook (names : List String)
    (f : String → AgentRuntime × Nat)
    (hf : ∀ n, (f n).2 = if (f n).1.HookBead = "" then 0 else 1) :
    ((names.map f).map Prod.snd).sum
      = ((names.map f).map Prod.fst).countP (fun a => a.HookBead != "") := by
  induction names with
  | nil => simp
  | cons hd tl ih =>
    simp only [List.map_cons, List.sum_cons, List.countP_cons]
    rw [ih, hf hd]
    by_cases h : (f hd).1.HookBead = ""
    · simp [h]
    · simp [h, Nat.add_comm]

/-- Claim C4, per-rig part: the active-hook counter of one rig equals the
number of its agents with a non-empty hook id. -/
theorem buildRigStatus_hooks (r : Rig) (sessions : List String)
    (agentBeads hookBeads : List (String × Issue))
    (parse : String → Option AgentFields) (unread : String → Nat)
    (fastMode : Bool) :
    (buildRigStatus r sessions agentBeads hookBeads parse unread
        fastMode).2
      = (buildRigStatus r sessions agentBeads hookBeads parse unread
          fastMode).1.Agents.countP (fun a => a.HookBead != "") := by
  unfold buildRigStatus
  simp only [List.countP_append]
  rw [sum_snd_eq_countP_hook r.Polecats _
      (fun n => rigAgentEntry_snd_eq r.Name n "polecat" sessions agentBeads
        hookBeads parse unread fastMode),
    sum_snd_eq_countP_hook r.Crew _
      (fun n => rigAgentEntry_snd_eq r.Name n "crew" sessions agentBeads
        hookBeads parse unread fastMode)]
  have hw : (if r.HasWitness then [roleOnlyAgent r.Name "witness" sessions]
      else []).countP (fun a => a.HookBead != "") = 0 := by
    cases hx : r.HasWitness <;> simp [roleOnlyAgent]
  have hr : (if r.HasRefinery then [roleOnlyAgent r.Name "refinery" sessions]
      else []).countP (fun a => a.HookBead != "") = 0 := by
    cases hx : r.HasRefinery <;> simp [roleOnlyAgent]
  omega

/-- The summary fold counts one rig per element. -/
theorem buildSummary_RigCount (rigStatuses : List RigStatus)
    (rigActiveHooks : List Nat) :
    (buildSummary rigStatuses rigActiveHooks).RigCount
      = rigStatuses.length := by
  unfold buildSummary
  have aux : ∀ (l : List RigStatus) (init : StatusSummary),
      (l.foldl (fun s rs =>
        { s with
          RigCount := s.RigCount + 1,
          PolecatCount := s.PolecatCount + rs.PolecatCount,
          CrewCount := s.CrewCount + rs.CrewCount,
          WitnessCount := s.WitnessCount + (if rs.HasWitness then 1 else 0),
          RefineryCount := s.RefineryCount
            + (if rs.HasRefinery then 1 else 0) }) init).RigCount
        = init.RigCount + l.length := by
    intro l
    induction l with
    | nil => intro init; simp
    | cons hd tl ih =>
      intro init
      rw [List.foldl_cons, ih]
      simp
      omega
  simp [aux]

/-- The hook fold sums the per-rig counters. -/
theorem buildSummary_ActiveHooks (rigStatuses : List RigStatus)
    (rigActiveHooks : List Nat) :
    (buildSummary rigStatuses rigActiveHooks).ActiveHooks
      = rigActiveHooks.sum := by
  unfold buildSummary
  have aux : ∀ (l : List Nat) (a : Nat), l.foldl (· + ·) a = a + l.sum := by
    intro l
    induction l with
    | nil => intro a; simp
    | cons hd tl ih =>
      intro a
      rw [List.foldl_cons, ih, List.sum_cons]
      omega
  simp [aux]

/-- Claim C4: in every built status, the summary active-hook count is the
sum over rigs of agents with a non-empty hook, and the rig count is the
number of rigs. -/
theorem buildStatus_summary_invariants (townName townRoot : String)
    (overseer : Option OverseerInfo) (rigs : List Rig)
    (sessions : List String) (agentBeads hookBeads : List (String × Issue))
    (parse : String → Option AgentFields) (unread : String → Nat)
    (fastMode : Bool) :
    (buildStatus townName townRoot overseer rigs sessions agentBeads
        hookBeads parse unread fastMode).Summary.ActiveHooks
      = ((buildStatus townName townRoot overseer rigs sessions agentBeads
          hookBeads parse unread fastMode).Rigs.map
            (fun rs => rs.Agents.countP (fun a => a.HookBead != ""))).sum ∧
    (buildStatus townName townRoot overseer rigs sessions agentBeads
        hookBeads parse unread fastMode).Summary.RigCount
      = (buildStatus townName townRoot overseer rigs sessions agentBeads
          hookBeads parse unread fastMode).Rigs.length := by
  have hpoint : (rigs.map (fun r => buildRigStatus r sessions agentBeads
      hookBeads parse unread fastMode)).map Prod.snd
      = (rigs.map (fun r => buildRigStatus r sessions agentBeads
          hookBeads parse unread fastMode)).map
            (fun pr => pr.1.Agents.countP (fun a => a.HookBead != "")) := by
    apply List.map_congr_left
    intro pr hpr
    obtain ⟨r, _, rfl⟩ := List.mem_map.mp hpr
    exact buildRigStatus_hooks r sessions agentBeads hookBeads parse
      unread fastMode
  constructor
  · calc (buildStatus townName townRoot overseer rigs sessions agentBeads
          hookBeads parse unread fastMode).Summary.ActiveHooks
        = ((rigs.map (fun r => buildRigStatus r sessions agentBeads
            hookBeads parse unread fastMode)).map Prod.snd).sum :=
          buildSummary_ActiveHooks _ _
      _ = ((rigs.map (fun r => buildRigStatus r sessions agentBeads
            hookBeads parse unread fastMode)).map
              (fun pr => pr.1.Agents.countP (fun a => a.HookBead != ""))).sum
          := by rw [hpoint]
      _ = (((rigs.map (fun r => buildRigStatus r sessions agentBeads
            hookBeads parse unread fastMode)).map Prod.fst).map
              (fun rs => rs.Agents.countP (fun a => a.HookBead != ""))).sum
          := by
            simp only [List.map_map]
            apply congrArg List.sum
            apply List.map_congr_left
            intro r _
            rfl
  · exact buildSummary_RigCount _ _

/-- Work-state facts about one polecat/crew status entry: address and role
as constructed, `HasWork` tied to a non-empty hook id, and no work state
without an agent bead. -/
theorem rigAgentEntry_fst_spec (rigName name role : String)
    (sessions : List String) (agentBeads hookBeads : List (String × Issue))
    (parse : String → Option AgentFields) (unread : String → Nat)
    (fastMode : Bool) :
    ((rigAgentEntry rigName name role sessions agentBeads hookBeads parse
        unread fastMode).1.Address = rigName ++ "/" ++ name) ∧
    ((rigAgentEntry rigName name role sessions agentBeads hookBeads parse
        unread fastMode).1.Role = role) ∧
    (((rigAgentEntry rigName name role sessions agentBeads hookBeads parse
        unread fastMode).1.HasWork = true)
      ↔ (rigAgentEntry rigName name role sessions agentBeads hookBeads
          parse unread fastMode).1.HookBead ≠ "") ∧
    (List.lookup (rigName ++ "/" ++ name) agentBeads = none →
      (rigAgentEntry rigName name role sessions agentBeads hookBeads parse
        unread fastMode).1.HasWork = false ∧
      (rigAgentEntry rigName name role sessions agentBeads hookBeads parse
        unread fastMode).1.HookBead = "") := by
  rcases hl : List.lookup (rigName ++ "/" ++ name) agentBeads with _ | bead
  · cases fastMode <;> simp [rigAgentEntry, rigAgentEntryCore, hl]
  · by_cases hk : resolveHookID bead parse = "" <;> cases fastMode <;>
      simp [rigAgentEntry, rigAgentEntryCore, hl, hk]

/-- Work-state facts about one polecat/crew poll snapshot. -/
theorem snapAgentEntry_spec (rigName name : String)
    (sessions : List String) (agentBeads hookBeads : List (String × Issue))
    (parse : String → Option AgentFields) :
    (((snapAgentEntry rigName name sessions agentBeads hookBeads
        parse).HasWork = true)
      ↔ (snapAgentEntry rigName name sessions agentBeads hookBeads
          parse).HookBead ≠ "") ∧
    (List.lookup (rigName ++ "/" ++ name) agentBeads = none →
      (snapAgentEntry rigName name sessions agentBeads hookBeads
        parse).HasWork = false ∧
      (snapAgentEntry rigName name sessions agentBeads hookBeads
        parse).HookBead = "") := by
  rcases hl : List.lookup (rigName ++ "/" ++ name) agentBeads with _ | bead
  · simp [snapAgentEntry, hl]
  · by_cases hk : resolveHookID bead parse = "" <;>
      simp [snapAgentEntry, hl, hk]

/-- Claim C9: in every built status and every poll snapshot, `HasWork`
holds exactly for a non-empty hook id; global agents, agents without an
agent bead, and witness/refinery entries never carry work. -/
theorem agent_work_state (townName townRoot : String)
    (overseer : Option OverseerInfo) (rigs : List Rig)
    (sessions : List String) (agentBeads hookBeads : List (String × Issue))
    (parse : String → Option AgentFields) (unread : String → Nat)
    (fastMode : Bool) :
    (∀ a ∈ (buildStatus townName townRoot overseer rigs sessions agentBeads
        hookBeads parse unread fastMode).Agents,
      a.HasWork = false ∧ a.HookBead = "") ∧
    (∀ rs ∈ (buildStatus townName townRoot overseer rigs sessions agentBeads
        hookBeads parse unread fastMode).Rigs, ∀ a ∈ rs.Agents,
      ((a.HasWork = true) ↔ a.HookBead ≠ "") ∧
      (List.lookup a.Address agentBeads = none →
        a.HasWork = false ∧ a.HookBead = "") ∧
      (a.Role = "witness" ∨ a.Role = "refinery" →
        a.HasWork = false ∧ a.HookBead = "")) ∧
    (∀ p ∈ getAgentSnapshots rigs sessions agentBeads hookBeads parse,
      ((p.2.HasWork = true) ↔ p.2.HookBead ≠ "") ∧
      (List.lookup p.1 agentBeads = none →
        p.2.HasWork = false ∧ p.2.HookBead = "")) := by
  refine ⟨?_, ?_, ?_⟩
  · intro a ha
    have ha' : a ∈ discoverGlobalAgents sessions unread fastMode := ha
    unfold discoverGlobalAgents at ha'
    rcases List.mem_append.mp ha' with hm | hd
    · by_cases h1 : sessions.contains "gt-mayor"
      · rw [if_pos h1] at hm
        rcases List.mem_singleton.mp hm with rfl
        exact ⟨rfl, rfl⟩
      · rw [if_neg h1] at hm
        cases hm
    · by_cases h2 : sessions.contains "gt-deacon"
      · rw [if_pos h2] at hd
        rcases List.mem_singleton.mp hd with rfl
        exact ⟨rfl, rfl⟩
      · rw [if_neg h2] at hd
        cases hd
  · intro rs hrs a ha
    have hrs' : rs ∈ (rigs.map (fun r => buildRigStatus r sessions
        agentBeads hookBeads parse unread fastMode)).map Prod.fst := hrs
    rw [List.map_map] at hrs'
    obtain ⟨r, _, rfl⟩ := List.mem_map.mp hrs'
    have ha' : a ∈
        (r.Polecats.map (fun n => rigAgentEntry r.Name n "polecat" sessions
          agentBeads hookBeads parse unread fastMode)).map Prod.fst
        ++ (r.Crew.map (fun n => rigAgentEntry r.Name n "crew" sessions
          agentBeads hookBeads parse unread fastMode)).map Prod.fst
        ++ (if r.HasWitness then [roleOnlyAgent r.Name "witness" sessions]
            else [])
        ++ (if r.HasRefinery then [roleOnlyAgent r.Name "refinery" sessions]
            else []) := ha
    rcases List.mem_append.mp ha' with h3 | hrf
    · rcases List.mem_append.mp h3 with h2 | hwit
      · rcases List.mem_append.mp h2 with hpc | hcr
        · rw [List.map_map] at hpc
          obtain ⟨n, _, rfl⟩ := List.mem_map.mp hpc
          have hs := rigAgentEntry_fst_spec r.Name n "polecat" sessions
            agentBeads hookBeads parse unread fastMode
          refine ⟨hs.2.2.1, ?_, ?_⟩
          · intro hnone
            exact hs.2.2.2 (hs.1 ▸ hnone)
          · intro hrole
            rcases hs.2.1 ▸ hrole with h | h <;> exact absurd h (by decide)
        · rw [List.map_map] at hcr
          obtain ⟨n, _, rfl⟩ := List.mem_map.mp hcr
          have hs := rigAgentEntry_fst_spec r.Name n "crew" sessions
            agentBeads hookBeads parse unread fastMode
          refine ⟨hs.2.2.1, ?_, ?_⟩
          · intro hnone
            exact hs.2.2.2 (hs.1 ▸ hnone)
          · intro hrole
            rcases hs.2.1 ▸ hrole with h | h <;> exact absurd h (by decide)
      · by_cases hw : r.HasWitness
        · rw [if_pos hw] at hwit
          rcases List.mem_singleton.mp hwit with rfl
          exact ⟨by simp [roleOnlyAgent], fun _ => ⟨rfl, rfl⟩,
            fun _ => ⟨rfl, rfl⟩⟩
        · rw [if_neg hw] at hwit
          cases hwit
    · by_cases hf : r.HasRefinery
      · rw [if_pos hf] at hrf
        rcases List.mem_singleton.mp hrf with rfl
        exact ⟨by simp [roleOnlyAgent], fun _ => ⟨rfl, rfl⟩,
          fun _ => ⟨rfl, rfl⟩⟩
      · rw [if_neg hf] at hrf
        cases hrf
  · intro p hp
    unfold getAgentSnapshots at hp
    rcases List.mem_append.mp hp with hg | hr
    · unfold globalSnaps at hg
      rcases List.mem_filterMap.mp hg with ⟨nm, _, hf⟩
      by_cases hc : sessions.contains ("gt-" ++ nm)
      · rw [if_pos hc] at hf
        cases hf
        exact ⟨by simp [runningOnlySnap], fun _ => ⟨rfl, rfl⟩⟩
      · rw [if_neg hc] at hf
        cases hf
    · rcases List.mem_flatten.mp hr with ⟨l, hl, hpl⟩
      obtain ⟨r, _, rfl⟩ := List.mem_map.mp hl
      unfold rigSnaps at hpl
      rcases List.mem_append.mp hpl with h3 | hrf
      · rcases List.mem_append.mp h3 with h2 | hwit
        · rcases List.mem_append.mp h2 with hpc | hcr
          · obtain ⟨n, _, rfl⟩ := List.mem_map.mp hpc
            have hs := snapAgentEntry_spec r.Name n sessions agentBeads
              hookBeads parse
            exact ⟨hs.1, hs.2⟩
          · obtain ⟨n, _, rfl⟩ := List.mem_map.mp hcr
            have hs := snapAgentEntry_spec r.Name n sessions agentBeads
              hookBeads parse
            exact ⟨hs.1, hs.2⟩
        · by_cases hw : r.HasWitness
          · rw [if_pos hw] at hwit
            rcases List.mem_singleton.mp hwit with rfl
            exact ⟨by simp [runningOnlySnap], fun _ => ⟨rfl, rfl⟩⟩
          · rw [if_neg hw] at hwit
            cases hwit
      · by_cases hf : r.HasRefinery
        · rw [if_pos hf] at hrf
          rcases List.mem_singleton.mp hrf with rfl
          exact ⟨by simp [runningOnlySnap], fun _ => ⟨rfl, rfl⟩⟩
        · rw [if_neg hf] at hrf
          cases hrf

/-- Witness for C9: the concrete polecat snapshot for `acme/fox` is a
member of the poll snapshot and satisfies the work-state equivalence. -/
theorem agent_work_state_witness :
    (("acme/fox", agentSnapshot.mk true true "gt-7" "" "Fix login bug")
        ∈ getAgentSnapshots [rigW] ["gt-acme-fox"] [("acme/fox", beadW)]
            [("gt-7", hookW)] (fun _ => none)) ∧
    ((("acme/fox",
        agentSnapshot.mk true true "gt-7" "" "Fix login bug").2.HasWork
          = true)
      ↔ ("acme/fox",
          agentSnapshot.mk true true "gt-7" "" "Fix login bug").2.HookBead
            ≠ "") :=
  ⟨by decide,
    ((agent_work_state "town" "/town" none [rigW] ["gt-acme-fox"]
        [("acme/fox", beadW)] [("gt-7", hookW)] (fun _ => none)
        (fun _ => 0) true).2.2
      ("acme/fox", agentSnapshot.mk true true "gt-7" "" "Fix login bug")
      (by decide)).1⟩

/-- The loop counts exactly the tracked ids resolving to a closed issue. -/
theorem trackedLoop_completed (showIssue : String → Option Issue)
    (detailed : Bool) (ids : List String) :
    (trackedLoop showIssue detailed ids).completed
      = ids.countP (fun id =>
          match showIssue id with
          | some issue => issue.Status == "closed"
          | none => false) := by
  induction ids with
  | nil => rfl
  | cons hd tl ih =>
    rw [List.countP_cons]
    rcases hs : showIssue hd with _ | issue
    · simp [trackedLoop, hs, ih]
    · by_cases hc : issue.Status == "closed" <;>
        cases detailed <;> simp_all [trackedLoop, hs]

/-- Claim C5: `Total` is the tracked count; an empty tracked set gives
progress 1 with zero completed; otherwise `Completed` counts the tracked
issues resolving as closed, is at most `Total`, and `Progress` is their
exact ratio. -/
theorem buildConvoyInfo_progress (convoy : Issue)
    (showIssue : String → Option Issue) (detailed : Bool) :
    (buildConvoyInfo convoy showIssue detailed).Total
      = (buildConvoyInfo convoy showIssue detailed).TrackedIDs.length ∧
    ((buildConvoyInfo convoy showIssue detailed).Total = 0 →
      (buildConvoyInfo convoy showIssue detailed).Progress = 1 ∧
      (buildConvoyInfo convoy showIssue detailed).Completed = 0) ∧
    (0 < (buildConvoyInfo convoy showIssue detailed).Total →
      (buildConvoyInfo convoy showIssue detailed).Completed
        = (buildConvoyInfo convoy showIssue detailed).TrackedIDs.countP
            (fun id =>
              match showIssue id with
              | some issue => issue.Status == "closed"
              | none => false) ∧
      (buildConvoyInfo convoy showIssue detailed).Completed
        ≤ (buildConvoyInfo convoy showIssue detailed).Total ∧
      (buildConvoyInfo convoy showIssue detailed).Progress
        = ((buildConvoyInfo convoy showIssue detailed).Completed : ℚ)
          / ((buildConvoyInfo convoy showIssue detailed).Total : ℚ)) := by
  by_cases ht : (convoyBase convoy).Total = 0
  · have hb : buildConvoyInfo convoy showIssue detailed
        = { convoyBase convoy with Progress := 1 } := by
      unfold buildConvoyInfo
      rw [if_pos ht]
    refine ⟨?_, ?_, ?_⟩
    · rw [hb]
      rfl
    · intro _
      rw [hb]
      exact ⟨rfl, rfl⟩
    · intro hpos
      rw [hb] at hpos
      exact absurd hpos (by simp [ht])
  · have hpos : 0 < (convoyBase convoy).Total := Nat.pos_of_ne_zero ht
    have hloop := trackedLoop_completed showIssue detailed
      (convoyBase convoy).TrackedIDs
    by_cases hd : detailed
    · have hb : buildConvoyInfo convoy showIssue detailed
          = { convoyBase convoy with
              Completed := (trackedLoop showIssue detailed
                (convoyBase convoy).TrackedIDs).completed,
              Progress :=
                ((trackedLoop showIssue detailed
                  (convoyBase convoy).TrackedIDs).completed : ℚ)
                  / ((convoyBase convoy).Total : ℚ),
              Members := (trackedLoop showIssue detailed
                (convoyBase convoy).TrackedIDs).members,
              Blockers := (trackedLoop showIssue detailed
                (convoyBase convoy).TrackedIDs).blockers } := by
        unfold buildConvoyInfo
        rw [if_neg ht, if_pos hd, if_pos hpos]
      refine ⟨?_, ?_, ?_⟩
      · rw [hb]
        rfl
      · intro h0
        rw [hb] at h0
        exact absurd h0 ht
      · intro _
        rw [hb]
        refine ⟨hloop, ?_, rfl⟩
        rw [hloop]
        exact le_trans (List.countP_le_length _)
          (le_of_eq rfl)
    · have hb : buildConvoyInfo convoy showIssue detailed
          = { convoyBase convoy with
              Completed := (trackedLoop showIssue detailed
                (convoyBase convoy).TrackedIDs).completed,
              Progress :=
                ((trackedLoop showIssue detailed
                  (convoyBase convoy).TrackedIDs).completed : ℚ)
                  / ((convoyBase convoy).Total : ℚ) } := by
        unfold buildConvoyInfo
        rw [if_neg ht, if_neg hd, if_pos hpos]
      refine ⟨?_, ?_, ?_⟩
      · rw [hb]
        rfl
      · intro h0
        rw [hb] at h0
        exact absurd h0 ht
      · intro _
        rw [hb]
        refine ⟨hloop, ?_, rfl⟩
        rw [hloop]
        exact le_trans (List.countP_le_length _)
          (le_of_eq rfl)

/-- Witness for C5: a convoy tracking one closed and one open issue has a
positive total and the stated completed count and ratio. -/
theorem buildConvoyInfo_progress_witness :
    0 < (buildConvoyInfo convoyW showW false).Total ∧
    ((buildConvoyInfo convoyW showW false).Completed
        = (buildConvoyInfo convoyW showW false).TrackedIDs.countP
            (fun id =>
              match showW id with
              | some issue => issue.Status == "closed"
              | none => false) ∧
      (buildConvoyInfo convoyW showW false).Completed
        ≤ (buildConvoyInfo convoyW showW false).Total ∧
      (buildConvoyInfo convoyW showW false).Progress
        = ((buildConvoyInfo convoyW showW false).Completed : ℚ)
          / ((buildConvoyInfo convoyW showW false).Total : ℚ)) :=
  ⟨by decide, (buildConvoyInfo_progress convoyW showW false).2.2 (by decide)⟩

/-- A violation names the pinned record it came from. -/
theorem checkAttachOne_id (showIssue : String → Option Issue)
    (p : PinnedAttach) (v : AttachViolation)
    (h : checkAttachOne showIssue p = some v) : v.pinnedBeadID = p.id := by
  unfold checkAttachOne at h
  split at h
  · cases h
  · split at h
    · cases h
      rfl
    · split at h
      · cases h
        rfl
      · cases h

/-- Folding detachments clears exactly the named records and keeps the
resolver. -/
theorem detach_foldl_pinned (vs : List AttachViolation) (st : AttachStore) :
    ((vs.foldl (fun s v => detachMolecule s v.pinnedBeadID) st).pinned
      = st.pinned.map (fun p =>
          if p.id ∈ vs.map AttachViolation.pinnedBeadID then
            { p with attachedMolecule := "" }
          else p)) ∧
    (vs.foldl (fun s v => detachMolecule s v.pinnedBeadID) st).showIssue
      = st.showIssue := by
  induction vs generalizing st with
  | nil =>
    refine ⟨?_, rfl⟩
    simp
  | cons hd tl ih =>
    rw [List.foldl_cons]
    refine ⟨?_, (ih (detachMolecule st hd.pinnedBeadID)).2⟩
    rw [(ih (detachMolecule st hd.pinnedBeadID)).1]
    unfold detachMolecule
    rw [List.map_map]
    apply List.map_congr_left
    intro p _
    by_cases h1 : p.id = hd.pinnedBeadID <;>
      by_cases h2 : p.id ∈ tl.map AttachViolation.pinnedBeadID <;>
      simp_all [Function.comp, List.map_cons]

/-- Claim C6: on a one-record partition with a non-empty reference, `Run`
reports exactly one `closed` violation when the molecule resolves closed
and one `not_found` violation when the lookup fails; `Fix` detaches every
offending record; and `Run` after `Fix` is always clean. -/
theorem attach_check_spec (showIssue : String → Option Issue)
    (p : PinnedAttach) (hp : p.attachedMolecule ≠ "") :
    (∀ molecule, showIssue p.attachedMolecule = some molecule →
      molecule.Status = "closed" →
      attachRun ⟨[p], showIssue⟩
        = [⟨p.id, p.attachedMolecule, "closed"⟩]) ∧
    (showIssue p.attachedMolecule = none →
      attachRun ⟨[p], showIssue⟩
        = [⟨p.id, p.attachedMolecule, "not_found"⟩]) ∧
    (∀ st : AttachStore, ∀ v ∈ attachRun st, ∀ q ∈ (attachFix st).pinned,
      q.id = v.pinnedBeadID → q.attachedMolecule = "") ∧
    (∀ st : AttachStore, attachRun (attachFix st) = []) := by
  refine ⟨?_, ?_, ?_, ?_⟩
  · intro molecule hm hc
    simp [attachRun, checkAttachOne, hp, hm, hc]
  · intro hm
    simp [attachRun, checkAttachOne, hp, hm]
  · intro st v hv q hq hqid
    unfold attachFix at hq
    rw [(detach_foldl_pinned (attachRun st) st).1] at hq
    obtain ⟨p0, hp0, rfl⟩ := List.mem_map.mp hq
    by_cases hc : p0.id ∈ (attachRun st).map AttachViolation.pinnedBeadID
    · rw [if_pos hc]
    · exfalso
      rw [if_neg hc] at hqid
      exact hc (List.mem_map.mpr ⟨v, hv, hqid.symm⟩)
  · intro st
    have h1 : (attachFix st).pinned = st.pinned.map (fun p =>
        if p.id ∈ (attachRun st).map AttachViolation.pinnedBeadID then
          { p with attachedMolecule := "" }
        else p) := (detach_foldl_pinned (attachRun st) st).1
    have h2 : (attachFix st).showIssue = st.showIssue :=
      (detach_foldl_pinned (attachRun st) st).2
    show ((attachFix st).pinned).filterMap
      (checkAttachOne (attachFix st).showIssue) = []
    rw [h1, h2, List.filterMap_eq_nil_iff]
    intro q hq
    obtain ⟨p0, hp0, rfl⟩ := List.mem_map.mp hq
    by_cases hc : p0.id ∈ (attachRun st).map AttachViolation.pinnedBeadID
    · rw [if_pos hc]
      simp [checkAttachOne]
    · rw [if_neg hc]
      rcases hr : checkAttachOne st.showIssue p0 with _ | v
      · exact hr ▸ rfl
      · exfalso
        exact hc (List.mem_map.mpr ⟨v,
          List.mem_filterMap.mpr ⟨p0, hp0, hr⟩,
          checkAttachOne_id st.showIssue p0 v hr⟩)

/-- Witness for C6: the one-record partition referencing closed `gt-9`
yields exactly one `closed` violation. -/
theorem attach_check_spec_witness :
    (pinnedW.attachedMolecule ≠ "" ∧
      showAttachW pinnedW.attachedMolecule = some molW ∧
      molW.Status = "closed") ∧
    attachRun ⟨[pinnedW], showAttachW⟩
      = [⟨pinnedW.id, pinnedW.attachedMolecule, "closed"⟩] :=
  ⟨⟨by decide, by decide, by decide⟩,
    (attach_check_spec showAttachW pinnedW (by decide)).1 molW
      (by decide) (by decide)⟩

/-- Folding the group closures closes exactly the non-first members. -/
theorem close_foldl (gs : List (String × List String))
    (store : List HandoffBead) :
    gs.foldl (fun s g =>
      if 0 < (g.2.drop 1).length then
        closeWithReason s "duplicate handoff bead" (g.2.drop 1)
      else s) store
    = store.map (fun b =>
        if b.id ∈ (gs.map (fun g => g.2.drop 1)).flatten then
          { b with status := "closed"
                   closeReason := "duplicate handoff bead" }
        else b) := by
  induction gs generalizing store with
  | nil => simp
  | cons hd tl ih =>
    rw [List.foldl_cons]
    by_cases hg : 0 < (hd.2.drop 1).length
    · rw [if_pos hg, ih]
      unfold closeWithReason
      rw [List.map_map]
      apply List.map_congr_left
      intro b _
      by_cases h1 : b.id ∈ hd.2.drop 1 <;>
        by_cases h2 : b.id ∈ (tl.map (fun g => g.2.drop 1)).flatten <;>
        simp only [List.drop_one] at h1 h2 ⊢ <;>
        simp [Function.comp, h1, h2]
    · rw [if_neg hg, ih]
      have hnil : hd.2.drop 1 = [] := by
        rw [← List.length_eq_zero]
        omega
      apply List.map_congr_left
      intro b _
      rw [List.map_cons, List.flatten_cons, hnil, List.nil_append]

/-- Claim C7: on the A, B, C store the check flags exactly B and C as
duplicates; `Fix` closes every non-first member of each duplicate group
with the fixed audit reason and leaves the first pinned; re-running `Fix`
after a successful `Fix` is a no-op. -/
theorem singleton_check_spec :
    singletonRun storeABC = [("Polecat Handoff", ["gt-1", "gt-2", "gt-3"])] ∧
    (singletonRun storeABC).map (fun g => g.2.drop 1) = [["gt-2", "gt-3"]] ∧
    singletonFix storeABC
      = [⟨"gt-1", "Polecat Handoff", "pinned", ""⟩,
         ⟨"gt-2", "Polecat Handoff", "closed", "duplicate handoff bead"⟩,
         ⟨"gt-3", "Polecat Handoff", "closed", "duplicate handoff bead"⟩] ∧
    singletonFix (singletonFix storeABC) = singletonFix storeABC ∧
    (∀ store : List HandoffBead, ∀ g ∈ singletonRun store,
      ∀ b ∈ singletonFix store, b.id ∈ g.2.drop 1 →
        b.status = "closed" ∧ b.closeReason = "duplicate handoff bead") := by
  refine ⟨by decide, by decide, by decide, by decide, ?_⟩
  intro store g hg b hb hbid
  have h1 : singletonFix store = store.map (fun b =>
      if b.id ∈ ((singletonRun store).map (fun g => g.2.drop 1)).flatten then
        { b with status := "closed"
                 closeReason := "duplicate handoff bead" }
      else b) := close_foldl (singletonRun store) store
  rw [h1] at hb
  obtain ⟨b0, hb0, rfl⟩ := List.mem_map.mp hb
  by_cases hc : b0.id ∈ ((singletonRun store).map
      (fun g => g.2.drop 1)).flatten
  · rw [if_pos hc]
    exact ⟨rfl, rfl⟩
  · exfalso
    rw [if_neg hc] at hbid
    exact hc (List.mem_flatten.mpr
      ⟨g.2.drop 1, List.mem_map.mpr ⟨g, hg, rfl⟩, hbid⟩)

/-- Witness for C7: in the fixed A, B, C store, bead B is closed with the
audit reason. -/
theorem singleton_check_spec_witness :
    (("Polecat Handoff", ["gt-1", "gt-2", "gt-3"])
        ∈ singletonRun storeABC ∧
      (⟨"gt-2", "Polecat Handoff", "closed",
          "duplicate handoff bead"⟩ : HandoffBead)
        ∈ singletonFix storeABC ∧
      ("gt-2" : String)
        ∈ (("Polecat Handoff", ["gt-1", "gt-2", "gt-3"])
            : String × List String).2.drop 1) ∧
    ((⟨"gt-2", "Polecat Handoff", "closed",
        "duplicate handoff bead"⟩ : HandoffBead).status = "closed" ∧
      (⟨"gt-2", "Polecat Handoff", "closed",
        "duplicate handoff bead"⟩ : HandoffBead).closeReason
        = "duplicate handoff bead") :=
  ⟨⟨by decide, by decide, by decide⟩,
    singleton_check_spec.2.2.2.2 storeABC
      ("Polecat Handoff", ["gt-1", "gt-2", "gt-3"]) (by decide)
      ⟨"gt-2", "Polecat Handoff", "closed", "duplicate handoff bead"⟩
      (by decide) (by decide)⟩
